import Mathlib

/-!
Shallow embedding of `demo.py` from the LongLoRA repository: the gradio demo's
`response` closure built by `build_generator` (file-extension check, prompt
formatting, token-limit check, generation and prompt stripping), together with
the RoPE-scaling and tokenizer `model_max_length` computations from `main`.
External library calls (file reading, tokenizer, model generation, decoding)
are abstracted as an environment of pure functions.
-/

namespace Demo

/-- Python `str.split(sep)` for a nonempty separator, on character lists.
`skip` counts characters of a just-matched separator that remain to be
consumed, `acc` holds the current piece in reverse. Occurrences are found
left to right and do not overlap, as in CPython. -/
def pySplitAux (sep : List Char) : Nat → List Char → List Char → List (List Char)
  | _, acc, [] => [acc.reverse]
  | Nat.succ n, acc, _ :: rest => pySplitAux sep n acc rest
  | 0, acc, c :: rest =>
    if sep.isPrefixOf (c :: rest) then
      acc.reverse :: pySplitAux sep (sep.length - 1) [] rest
    else
      pySplitAux sep 0 (c :: acc) rest

/-- Python `s.split(sep)`. `demo.py` only calls it with a nonempty separator
(`"."` and the formatted prompt); Python raises `ValueError` on an empty one,
which never happens here. -/
def pySplit (s sep : String) : List String :=
  (pySplitAux sep.data 0 [] s.data).map fun l => ⟨l⟩

/-- Core of Python `str.format_map` substitution: replace every occurrence of
`pat` (nonempty) by `repl`, scanning left to right without overlap. `skip`
counts pattern characters that remain to be consumed after a match. -/
def replaceAllAux (pat repl : List Char) : Nat → List Char → List Char
  | _, [] => []
  | Nat.succ n, _ :: rest => replaceAllAux pat repl n rest
  | 0, c :: rest =>
    if pat.isPrefixOf (c :: rest) then
      repl ++ replaceAllAux pat repl (pat.length - 1) rest
    else
      c :: replaceAllAux pat repl 0 rest

/-- The replacement field `\x7bkey\x7d` substituted by `str.format_map`. -/
def fieldPat (key : String) : String := "\x7b" ++ key ++ "\x7d"

/-- Python `template.format_map({key: value})`: the template used in `demo.py`
contains the single field `\x7binstruction\x7d` and no other brace, so
`format_map` amounts to substituting `value` for each occurrence of that
field. -/
def pyFormatMap (template key value : String) : String :=
  ⟨replaceAllAux (fieldPat key).data value.data 0 template.data⟩

/-- The ASCII whitespace characters removed by Python `str.strip()`
(space, tab, newline, carriage return, vertical tab, form feed). -/
def pyIsSpace (c : Char) : Bool :=
  c == ' ' || c == '\t' || c == '\n' || c == '\r' || c == '\x0b' || c == '\x0c'

/-- Python `str.strip()`: whitespace removed from both ends. -/
def pyStrip (s : String) : String :=
  ⟨((s.data.dropWhile pyIsSpace).reverse.dropWhile pyIsSpace).reverse⟩

/-- The template `PROMPT_DICT["prompt_no_input"]` from `demo.py`. -/
def prompt_no_input : String :=
  "Below is an instruction that describes a task. Write a response that appropriately completes the request.\n\n### Instruction:\n{instruction}\n\n### Response:"

/-- The key of the single field of `prompt_no_input`. -/
def instructionKey : String := "instruction"

/-- The rejection message for a missing or non-txt upload. -/
def ONLY_TXT_MSG : String := "Only support txt file."

/-- The rejection message returned when the prompt has `n > 32768` tokens:
`"This demo supports tokens less than 32768, while the current is %d. Please
use material with less tokens." % n`. -/
def OVER_LIMIT_MSG (n : Nat) : String :=
  "This demo supports tokens less than 32768, while the current is " ++ toString n ++
    ". Please use material with less tokens."

/-- The separator of the extension check `material.name.split(".")`. -/
def dotSep : String := "."

/-- The extension component required by the check. -/
def txtExt : String := "txt"

/-- The empty string, default for `getLastD` (never used: a split is never
empty, matching Python's total `[-1]` indexing there). -/
def emptyStr : String := ""

/-- The prompt built by `response`:
`prompt_no_input.format_map({"instruction": material + "\n%s" % question})`,
where `material` stands for the file content. -/
def promptOf (material question : String) : String :=
  pyFormatMap prompt_no_input instructionKey (material ++ "\n" ++ question)

/-- The uploaded gradio file object; only its `.name` (a path) is used. -/
structure UploadedFile where
  name : String

/-- The external model-serving stack captured by the closure built in
`build_generator`: reading the uploaded file (`read_txt_file`), the tokenizer
(`tokenizer(prompt)["input_ids"][0]`), generation (`model.generate(...)[0]`,
whose sampling parameters are fixed inside the closure) and decoding
(`tokenizer.decode(·, skip_special_tokens=True)`). -/
structure Env where
  readFile : String → String
  tokenize : String → List Nat
  generate : List Nat → List Nat
  decode : List Nat → String

/-- Outcome of one call of `response`: a returned string, or the uncaught
`IndexError` raised by `out.split(prompt)[1]` when that element is missing. -/
inductive RespResult where
  | ret (s : String)
  | indexError
  deriving DecidableEq

/-- Which externally visible steps a call of `response` performed. -/
structure Effects where
  fileRead : Bool
  tokenized : Bool
  genCalled : Bool
  deriving DecidableEq

/-- The `response` closure of `build_generator` in `demo.py`:

* `material is None` returns `"Only support txt file."`;
* `not material.name.split(".")[-1] == 'txt'` returns the same message (the
  split list is never empty, so Python's `[-1]` is its last element, modelled
  by `getLastD`);
* the prompt is the file content formatted through `prompt_no_input`;
* strictly more than 32768 prompt tokens returns the `OVER_LIMIT_MSG` refusal
  before `model.generate` is reached;
* otherwise generate, decode, take `out.split(prompt)[1]` (an `IndexError`
  when that element does not exist) and `strip()` it. -/
def response (env : Env) (material : Option UploadedFile) (question : String) :
    RespResult × Effects :=
  match material with
  | none => (.ret ONLY_TXT_MSG, ⟨false, false, false⟩)
  | some m =>
    if (pySplit m.name dotSep).getLastD emptyStr ≠ txtExt then
      (.ret ONLY_TXT_MSG, ⟨false, false, false⟩)
    else if (env.tokenize (promptOf (env.readFile m.name) question)).length > 32768 then
      (.ret (OVER_LIMIT_MSG (env.tokenize (promptOf (env.readFile m.name) question)).length),
        ⟨true, true, false⟩)
    else
      match (pySplit
          (env.decode (env.generate (env.tokenize (promptOf (env.readFile m.name) question))))
          (promptOf (env.readFile m.name) question))[1]? with
      | none => (.indexError, ⟨true, true, true⟩)
      | some piece => (.ret (pyStrip piece), ⟨true, true, true⟩)

/-- The record `config.rope_scaling = {"type": "linear", "factor": scaling_factor}`. -/
structure RopeScaling where
  type : String
  factor : Nat
  deriving DecidableEq

/-- The slice of the HF model configuration touched by `main`:
`max_position_embeddings` (absent modelled as `none`, mirroring
`getattr(config, "max_position_embeddings", None)`) and `rope_scaling`. -/
structure ModelConfig where
  max_position_embeddings : Option Nat
  rope_scaling : Option RopeScaling
  deriving DecidableEq

/-- Lines 188–191 of `demo.py`: `if orig_ctx_len and args.context_size >
orig_ctx_len:` (both `None` and `0` are falsy) sets `rope_scaling` to a linear
scaling whose factor is `float(math.ceil(args.context_size / orig_ctx_len))`,
an exact small integer here, modelled by exact integer arithmetic
`(c + m - 1) / m`. -/
def setRopeScaling (config : ModelConfig) (context_size : Int) : ModelConfig :=
  match config.max_position_embeddings with
  | none => config
  | some m =>
    if m ≠ 0 ∧ (m : Int) < context_size then
      { config with rope_scaling := some ⟨"linear", (context_size.toNat + m - 1) / m⟩ }
    else config

/-- Line 207 of `demo.py`:
`model_max_length=args.context_size if args.context_size > orig_ctx_len else
orig_ctx_len`. When `orig_ctx_len` is `None`, Python 3 raises `TypeError` on
`int > None`; that failure is modelled by `none`. -/
def tokenizerModelMaxLength (orig_ctx_len : Option Nat) (context_size : Int) : Option Int :=
  match orig_ctx_len with
  | none => none
  | some m => some (if (m : Int) < context_size then context_size else (m : Int))

/-- Spec side of the template refinement: the fixed text of the claimed
template before the instruction slot. -/
def promptHead : String :=
  "Below is an instruction that describes a task. Write a response that appropriately completes the request.\n\n### Instruction:\n"

/-- Spec side of the template refinement: the fixed text of the claimed
template after the instruction slot. -/
def promptTail : String := "\n\n### Response:"

/-! Stub environments used as concrete inputs -/

/-- Stub environment whose tokenizer always reports 32769 tokens. -/
def envOver : Env where
  readFile := fun _ => "doc"
  tokenize := fun _ => List.replicate 32769 0
  generate := fun _ => []
  decode := fun _ => ""

/-- Stub environment with empty content, tokens and decoded output. -/
def envEmpty : Env where
  readFile := fun _ => ""
  tokenize := fun _ => []
  generate := fun _ => []
  decode := fun _ => ""

/-- Stub environment whose decoded output is the prompt for content `"doc"`
and question `"q"` followed by the continuation `" ans "`. -/
def envGen : Env where
  readFile := fun _ => "doc"
  tokenize := fun _ => [1]
  generate := fun _ => [1]
  decode := fun _ => promptOf ("doc") ("q") ++ " ans "

/-- Stub environment whose decoded output does not contain the prompt. -/
def envBad : Env where
  readFile := fun _ => "doc"
  tokenize := fun _ => [1]
  generate := fun _ => [1]
  decode := fun _ => "nope"

example : pySplit ("a.txt") dotSep = ["a", "txt"] := by decide
example : pySplit ("txt") dotSep = ["txt"] := by decide
example : pySplit ("aba") ("a") = ["", "b", ""] := by decide
example : pySplit ("aaa") ("aa") = ["", "a"] := by decide
example : pyStrip ("  ab c\n") = "ab c" := by decide
example : promptOf ("d") ("q") = promptHead ++ ("d" ++ "\n" ++ "q") ++ promptTail := by decide

/-! Lemmas about the Python split model -/

/-- The boolean `isPrefixOf` agrees with the prefix relation on char lists. -/
theorem isPrefixOf_true_iff {l1 l2 : List Char} : l1.isPrefixOf l2 = true ↔ l1 <+: l2 :=
  List.isPrefixOf_iff_prefix

/-- A split never produces the empty list (so Python's `[-1]` on it is total). -/
theorem pySplitAux_ne_nil (sep : List Char) :
    ∀ (l : List Char) (skip : Nat) (acc : List Char), pySplitAux sep skip acc l ≠ [] := by
  intro l
  induction l with
  | nil => intro skip acc; simp [pySplitAux]
  | cons c rest ih =>
    intro skip acc
    cases skip with
    | succ n => simpa [pySplitAux] using ih n acc
    | zero =>
      rcases hb : sep.isPrefixOf (c :: rest) with _ | _
      · simpa [pySplitAux, hb] using ih 0 (c :: acc)
      · simp [pySplitAux, hb]

/-- Characters consumed while `skip` is positive are dropped verbatim. -/
theorem pySplitAux_skip (sep : List Char) :
    ∀ (l m acc : List Char), pySplitAux sep l.length acc (l ++ m) = pySplitAux sep 0 acc m := by
  intro l
  induction l with
  | nil => intro m acc; rfl
  | cons c rest ih =>
    intro m acc
    simpa [pySplitAux] using ih m acc

/-- If the separator occurs nowhere in `l` (no suffix of `l` starts with it),
the scan produces the single piece `acc.reverse ++ l`. -/
theorem pySplitAux_no_occ (sep : List Char) :
    ∀ (l acc : List Char), (∀ t, t <:+ l → ¬ sep <+: t) →
      pySplitAux sep 0 acc l = [acc.reverse ++ l] := by
  intro l
  induction l with
  | nil => intro acc _; simp [pySplitAux]
  | cons c rest ih =>
    intro acc h
    rcases hb : sep.isPrefixOf (c :: rest) with _ | _
    · have : pySplitAux sep 0 (c :: acc) rest = [(c :: acc).reverse ++ rest] := by
        refine ih (c :: acc) fun t ht hp => h t (ht.trans (List.suffix_cons c rest)) hp
      simp [pySplitAux, hb, this, List.reverse_cons, List.append_assoc]
    · exact absurd (isPrefixOf_true_iff.mp hb) (h (c :: rest) List.suffix_rfl)

/-- Splitting `sep ++ rest` on `sep`, when `sep` does not occur in `rest`,
yields exactly `[[], rest]`. -/
theorem pySplitAux_self (sep rest : List Char) (hsep : sep ≠ [])
    (h : ∀ t, t <:+ rest → ¬ sep <+: t) :
    pySplitAux sep 0 [] (sep ++ rest) = [[], rest] := by
  rcases sep with _ | ⟨s0, sep'⟩
  · exact absurd rfl hsep
  · have hb : (s0 :: sep').isPrefixOf ((s0 :: sep') ++ rest) = true :=
      List.isPrefixOf_iff_prefix.mpr (List.prefix_append _ _)
    have hskip : pySplitAux (s0 :: sep') sep'.length [] (sep' ++ rest) =
        pySplitAux (s0 :: sep') 0 [] rest := pySplitAux_skip _ sep' rest []
    have hrest : pySplitAux (s0 :: sep') 0 [] rest = [rest] := by
      simpa using pySplitAux_no_occ (s0 :: sep') rest [] h
    show pySplitAux (s0 :: sep') 0 [] (s0 :: (sep' ++ rest)) = [[], rest]
    simp [pySplitAux, hb, Nat.succ_sub_one, hskip, hrest]

/-- If the separator occurs somewhere in `l`, the split has at least two
pieces. -/
theorem two_le_length_pySplitAux (sep : List Char) (hsep : sep ≠ []) :
    ∀ (l acc : List Char), (∃ t, t <:+ l ∧ sep <+: t) →
      2 ≤ (pySplitAux sep 0 acc l).length := by
  intro l
  induction l with
  | nil =>
    intro acc h
    rcases h with ⟨t, ht, hp⟩
    rw [List.suffix_nil] at ht
    subst ht
    exact absurd (List.prefix_nil.mp hp) hsep
  | cons c rest ih =>
    intro acc h
    rcases hb : sep.isPrefixOf (c :: rest) with _ | _
    · rcases h with ⟨t, ht, hp⟩
      rcases List.suffix_cons_iff.mp ht with h1 | h1
      · subst h1
        exact absurd (isPrefixOf_true_iff.mpr hp) (by simp [hb])
      · simpa [pySplitAux, hb] using ih (c :: acc) ⟨t, h1, hp⟩
    · have hne := pySplitAux_ne_nil sep rest (sep.length - 1) []
      have : 1 ≤ (pySplitAux sep (sep.length - 1) [] rest).length :=
        Nat.one_le_iff_ne_zero.mpr (by simpa [List.length_eq_zero] using hne)
      simp only [pySplitAux, hb, if_pos]
      simpa using Nat.succ_le_succ this

/-- The last piece of a single-character split of `l ++ c :: m`, when `c` does
not occur in `m`, is `m`. -/
theorem pySplitAux_getLastD (c : Char) :
    ∀ (l m acc d : List Char), c ∉ m →
      (pySplitAux [c] 0 acc (l ++ c :: m)).getLastD d = m := by
  intro l
  induction l with
  | nil =>
    intro m acc d hm
    have hb : [c].isPrefixOf (c :: m) = true :=
      isPrefixOf_true_iff.mpr ⟨m, rfl⟩
    have hno : ∀ t, t <:+ m → ¬ [c] <+: t := by
      intro t ht hp
      rcases hp with ⟨u, rfl⟩
      exact hm (ht.subset (by simp))
    have hrest : pySplitAux [c] 0 [] m = [m] := by
      simpa using pySplitAux_no_occ [c] m [] hno
    show (pySplitAux [c] 0 acc (c :: m)).getLastD d = m
    simp [pySplitAux, hb, hrest, List.getLastD_cons, List.getLastD_nil]
  | cons a l' ih =>
    intro m acc d hm
    show (pySplitAux [c] 0 acc (a :: (l' ++ c :: m))).getLastD d = m
    rcases hb : [c].isPrefixOf (a :: (l' ++ c :: m)) with _ | _
    · simpa [pySplitAux, hb] using ih m (a :: acc) d hm
    · have hne := pySplitAux_ne_nil [c] (l' ++ c :: m) 0 []
      simp only [pySplitAux, hb, if_pos, List.length_cons, List.length_nil, Nat.succ_sub_one]
      rw [List.getLastD_cons]
      exact ih m [] _ hm

/-! String-level corollaries -/

/-- Taking `getLastD` commutes with packing character lists into strings. -/
theorem getLastD_map_mk :
    ∀ (l : List (List Char)) (d : List Char),
      (l.map fun x => (⟨x⟩ : String)).getLastD ⟨d⟩ = ⟨l.getLastD d⟩ := by
  intro l
  induction l with
  | nil => intro d; rfl
  | cons a l' ih =>
    intro d
    rw [List.map_cons, List.getLastD_cons, List.getLastD_cons]
    exact ih a

/-- A name ending in `".txt"` has final dot-component `"txt"`, so it passes
the extension check of `response`. -/
theorem ext_component_of_txt_suffix (name : String)
    (h : (".txt" : String).data <:+ name.data) :
    (pySplit name dotSep).getLastD emptyStr = txtExt := by
  rcases h with ⟨t, ht⟩
  have hm : '.' ∉ (['t', 'x', 't'] : List Char) := by decide
  have hlast := pySplitAux_getLastD '.' t ['t', 'x', 't'] [] [] hm
  show (pySplit name dotSep).getLastD ⟨[]⟩ = txtExt
  rw [pySplit, getLastD_map_mk]
  have hdata : name.data = t ++ '.' :: ['t', 'x', 't'] := by
    rw [← ht]
  rw [show dotSep.data = ['.'] from rfl, hdata]
  rw [hlast]
  rfl

/-- If `sep` is not an infix of `l`, no suffix of `l` starts with `sep`. -/
theorem no_occ_of_absent {sep l : List Char} (h : ¬ sep <:+: l) :
    ∀ t, t <:+ l → ¬ sep <+: t := by
  intro t ht hp
  rcases ht with ⟨u, rfl⟩
  rcases hp with ⟨v, rfl⟩
  exact h ⟨u, v, by simp⟩

/-- Splitting `p ++ r` on a nonempty `p` that does not occur in `r` gives
`["", r]`. -/
theorem pySplit_append (p r : String) (hp : p.data ≠ [])
    (h : ¬ p.data <:+: r.data) : pySplit (p ++ r) p = ["", r] := by
  rw [pySplit, String.data_append, pySplitAux_self p.data r.data hp (no_occ_of_absent h)]
  rfl

/-- Splitting `s` on a nonempty `p` that does not occur in `s` gives `[s]`. -/
theorem pySplit_single (p s : String) (h : ¬ p.data <:+: s.data) :
    pySplit s p = [s] := by
  rw [pySplit, pySplitAux_no_occ p.data s.data [] (no_occ_of_absent h)]
  rfl

/-- Splitting `s` on a nonempty `p` that does occur in `s` gives at least two
pieces. -/
theorem pySplit_two_le (p s : String) (hp : p.data ≠ [])
    (h : p.data <:+: s.data) : 2 ≤ (pySplit s p).length := by
  rcases h with ⟨u, v, huv⟩
  have : ∃ t, t <:+ s.data ∧ p.data <+: t :=
    ⟨p.data ++ v, ⟨u, by rw [← List.append_assoc, huv]⟩, ⟨v, rfl⟩⟩
  rw [pySplit, List.length_map]
  exact two_le_length_pySplitAux p.data hp s.data [] this

/-- Lists with at least two elements have an element at index 1. -/
theorem getElem?_one_of_two_le {α : Type} :
    ∀ (l : List α), 2 ≤ l.length → ∃ x, l[1]? = some x := by
  intro l h
  match l, h with
  | a :: b :: t, _ => exact ⟨b, by simp⟩

/-! The formatted prompt -/

set_option maxRecDepth 4000 in
/-- Substituting into `prompt_no_input` splices the replacement between the
fixed head and tail: the scan of the concrete template reduces
definitionally. -/
theorem replaceAllAux_template (w : List Char) :
    replaceAllAux (fieldPat instructionKey).data w 0 prompt_no_input.data =
      promptHead.data ++ w ++ promptTail.data := rfl

/-- The prompt passed to the tokenizer is exactly the fixed template with the
instruction slot filled by the material, a newline and the question. -/
theorem promptOf_eq (d q : String) :
    promptOf d q = promptHead ++ (d ++ "\n" ++ q) ++ promptTail := by
  apply String.ext
  show replaceAllAux (fieldPat instructionKey).data (d ++ "\n" ++ q).data 0
      prompt_no_input.data = _
  rw [replaceAllAux_template (d ++ "\n" ++ q).data]
  simp [String.data_append]

/-- The formatted prompt is never the empty string. -/
theorem promptOf_data_ne_nil (d q : String) : (promptOf d q).data ≠ [] := by
  rw [promptOf_eq]
  intro h
  have : ('B' : Char) ∈ (promptHead ++ (d ++ "\n" ++ q) ++ promptTail).data := by
    rw [String.data_append, String.data_append]
    exact List.mem_append_left _ (List.mem_append_left _ (by decide))
  rw [h] at this
  exact List.not_mem_nil _ this

/-! Unfolding `response` past the material check -/

/-- The function `response` on a present upload, written as its branch cascade. -/
theorem response_some (env : Env) (m : UploadedFile) (q : String) :
    response env (some m) q =
      if (pySplit m.name dotSep).getLastD emptyStr ≠ txtExt then
        (.ret ONLY_TXT_MSG, ⟨false, false, false⟩)
      else if (env.tokenize (promptOf (env.readFile m.name) q)).length > 32768 then
        (.ret (OVER_LIMIT_MSG (env.tokenize (promptOf (env.readFile m.name) q)).length),
          ⟨true, true, false⟩)
      else
        match (pySplit
            (env.decode (env.generate (env.tokenize (promptOf (env.readFile m.name) q))))
            (promptOf (env.readFile m.name) q))[1]? with
        | none => (.indexError, ⟨true, true, true⟩)
        | some piece => (.ret (pyStrip piece), ⟨true, true, true⟩) := rfl

/-- A name ending in `".txt"` does not take the rejection branch. -/
theorem not_ext_fail_of_txt (m : UploadedFile)
    (hext : (".txt" : String).data <:+ m.name.data) :
    ¬ ((pySplit m.name dotSep).getLastD emptyStr ≠ txtExt) :=
  fun h => h (ext_component_of_txt_suffix m.name hext)

/-! Claims -/

/-- C1: for a `.txt` upload whose formatted prompt tokenizes to strictly more
than 32768 tokens, `response` returns the message naming the 32768 limit and
the actual token count and does not call generation; a prompt of exactly
32768 tokens is not rejected (generation is reached). -/
theorem token_limit_guard (env : Env) (m : UploadedFile) (q : String)
    (hext : (".txt" : String).data <:+ m.name.data) :
    ((env.tokenize (promptOf (env.readFile m.name) q)).length > 32768 →
      response env (some m) q =
        (.ret (OVER_LIMIT_MSG (env.tokenize (promptOf (env.readFile m.name) q)).length),
          ⟨true, true, false⟩)) ∧
    ((env.tokenize (promptOf (env.readFile m.name) q)).length = 32768 →
      (response env (some m) q).2.genCalled = true) := by
  have hc := not_ext_fail_of_txt m hext
  constructor
  · intro hlen
    rw [response_some, if_neg hc, if_pos hlen]
  · intro hlen
    rw [response_some, if_neg hc, if_neg (by rw [hlen]; exact lt_irrefl 32768)]
    rcases hsp : (pySplit
        (env.decode (env.generate (env.tokenize (promptOf (env.readFile m.name) q))))
        (promptOf (env.readFile m.name) q))[1]? with _ | piece <;>
      simp only [hsp]

/-- C1 witness: a concrete `.txt` upload with 32769 prompt tokens is refused
with the count in the message. -/
theorem token_limit_guard_witness :
    ((".txt" : String).data <:+ ("a.txt" : String).data) ∧
    response envOver (some ⟨"a.txt"⟩) ("q") =
      (.ret (OVER_LIMIT_MSG 32769), ⟨true, true, false⟩) := by
  refine ⟨by decide, ?_⟩
  have h := (token_limit_guard envOver ⟨"a.txt"⟩ ("q") (by decide)).1
  have hl : (envOver.tokenize
      (promptOf (envOver.readFile (UploadedFile.mk ("a.txt")).name) ("q"))).length = 32769 := by
    show (List.replicate 32769 (0 : Nat)).length = 32769
    rw [List.length_replicate]
  rw [hl] at h
  exact h (by norm_num)

/-- C2 counterexample: the upload named `"txt"` does not end in `".txt"`, yet
`response` does not return the rejection message: the check compares only the
last dot-component, which for the dotless name `"txt"` is `"txt"` itself. -/
theorem ext_check_dotless_cex :
    ¬ ((".txt" : String).data <:+ ("txt" : String).data) ∧
    (response envEmpty (some ⟨"txt"⟩) ("q")).1 ≠ .ret ONLY_TXT_MSG := by
  exact ⟨by decide, by decide⟩

/-- C2 amended: `response` returns exactly `"Only support txt file."` whenever
the final dot-component of the uploaded name differs from `"txt"` — a
condition that agrees with "does not end in `.txt`" except on dotless names
such as `"txt"` — and every name ending in `".txt"` passes the rejection
branch (the tokenizer is reached). -/
theorem ext_check_spec (env : Env) (m : UploadedFile) (q : String) :
    ((pySplit m.name dotSep).getLastD emptyStr ≠ txtExt →
      response env (some m) q = (.ret ONLY_TXT_MSG, ⟨false, false, false⟩)) ∧
    ((".txt" : String).data <:+ m.name.data →
      (response env (some m) q).2.tokenized = true) := by
  constructor
  · intro h
    rw [response_some, if_pos h]
  · intro hext
    rw [response_some, if_neg (not_ext_fail_of_txt m hext)]
    by_cases hlen : (env.tokenize (promptOf (env.readFile m.name) q)).length > 32768
    · rw [if_pos hlen]
    · rw [if_neg hlen]
      rcases hsp : (pySplit
          (env.decode (env.generate (env.tokenize (promptOf (env.readFile m.name) q))))
          (promptOf (env.readFile m.name) q))[1]? with _ | piece <;>
        simp only [hsp]

/-- C2 amended, witness: the name `"a"` has final dot-component `"a"` and is
rejected with exactly the txt message. -/
theorem ext_check_spec_witness :
    ((pySplit ((UploadedFile.mk ("a")).name) dotSep).getLastD emptyStr ≠ txtExt) ∧
    response envEmpty (some ⟨"a"⟩) ("q") = (.ret ONLY_TXT_MSG, ⟨false, false, false⟩) :=
  ⟨by decide, (ext_check_spec envEmpty ⟨"a"⟩ ("q")).1 (by decide)⟩

/-- C3 counterexample: on a 32769-token prompt the closure neither truncates
nor generates — generation is never called and the refusal message is
returned instead. -/
theorem overflow_no_truncation_cex :
    32768 < (envOver.tokenize
      (promptOf (envOver.readFile (UploadedFile.mk ("a.txt")).name) ("q"))).length ∧
    (response envOver (some ⟨"a.txt"⟩) ("q")).2.genCalled = false ∧
    (response envOver (some ⟨"a.txt"⟩) ("q")).1 = .ret (OVER_LIMIT_MSG 32769) := by
  have hl : (envOver.tokenize
      (promptOf (envOver.readFile (UploadedFile.mk ("a.txt")).name) ("q"))).length = 32769 := by
    show (List.replicate 32769 (0 : Nat)).length = 32769
    rw [List.length_replicate]
  have hc : ¬ ((pySplit (UploadedFile.mk ("a.txt")).name dotSep).getLastD emptyStr ≠ txtExt) := by
    decide
  refine ⟨by rw [hl]; norm_num, ?_, ?_⟩
  · rw [response_some, if_neg hc, if_pos (by rw [hl]; norm_num)]
  · rw [response_some, if_neg hc, if_pos (by rw [hl]; norm_num), hl]

/-- C3 amended: on token-length overflow the closure does not truncate and
continue into generation; it refuses the request, returning the message with
the supported limit and the actual count, and generation is skipped. -/
theorem overflow_refuses (env : Env) (m : UploadedFile) (q : String)
    (hext : (".txt" : String).data <:+ m.name.data)
    (hlen : (env.tokenize (promptOf (env.readFile m.name) q)).length > 32768) :
    response env (some m) q =
      (.ret (OVER_LIMIT_MSG (env.tokenize (promptOf (env.readFile m.name) q)).length),
        ⟨true, true, false⟩) := by
  rw [response_some, if_neg (not_ext_fail_of_txt m hext), if_pos hlen]

/-- C3 amended, witness. -/
theorem overflow_refuses_witness :
    ((".txt" : String).data <:+ ("a.txt" : String).data) ∧
    32768 < (envOver.tokenize
      (promptOf (envOver.readFile (UploadedFile.mk ("a.txt")).name) ("q"))).length ∧
    response envOver (some ⟨"a.txt"⟩) ("q") =
      (.ret (OVER_LIMIT_MSG 32769), ⟨true, true, false⟩) := by
  have hl : (envOver.tokenize
      (promptOf (envOver.readFile (UploadedFile.mk ("a.txt")).name) ("q"))).length = 32769 := by
    show (List.replicate 32769 (0 : Nat)).length = 32769
    rw [List.length_replicate]
  refine ⟨by decide, by rw [hl]; norm_num, ?_⟩
  have h := overflow_refuses envOver ⟨"a.txt"⟩ ("q") (by decide) (by rw [hl]; norm_num)
  rw [hl] at h
  exact h

/-- C8: with no uploaded material, `response` returns the txt rejection
message without reading a file, tokenizing or generating. -/
theorem none_material_rejected (env : Env) (q : String) :
    response env none q = (.ret ONLY_TXT_MSG, ⟨false, false, false⟩) := rfl

/-- C5: for a valid `.txt` input within the token limit, when the decoded
generation output is the formatted prompt followed by a continuation in which
the prompt does not reoccur, `response` returns that continuation with
surrounding whitespace stripped. -/
theorem gen_output_stripped (env : Env) (m : UploadedFile) (q rest : String)
    (hext : (".txt" : String).data <:+ m.name.data)
    (hlen : (env.tokenize (promptOf (env.readFile m.name) q)).length ≤ 32768)
    (hout : env.decode (env.generate (env.tokenize (promptOf (env.readFile m.name) q))) =
      promptOf (env.readFile m.name) q ++ rest)
    (hno : ¬ (promptOf (env.readFile m.name) q).data <:+: rest.data) :
    response env (some m) q = (.ret (pyStrip rest), ⟨true, true, true⟩) := by
  rw [response_some, if_neg (not_ext_fail_of_txt m hext), if_neg (not_lt.mpr hlen), hout,
    pySplit_append _ _ (promptOf_data_ne_nil _ _) hno]
  rfl

/-- C5 witness: with decoded output `prompt ++ " ans "`, the answer `"ans"`
comes back stripped. -/
theorem gen_output_stripped_witness :
    ((".txt" : String).data <:+ ("a.txt" : String).data) ∧
    (envGen.tokenize
      (promptOf (envGen.readFile (UploadedFile.mk ("a.txt")).name) ("q"))).length ≤ 32768 ∧
    envGen.decode (envGen.generate (envGen.tokenize
        (promptOf (envGen.readFile (UploadedFile.mk ("a.txt")).name) ("q")))) =
      promptOf (envGen.readFile (UploadedFile.mk ("a.txt")).name) ("q") ++ " ans " ∧
    ¬ (promptOf (envGen.readFile (UploadedFile.mk ("a.txt")).name) ("q")).data <:+:
      (" ans " : String).data ∧
    response envGen (some ⟨"a.txt"⟩) ("q") = (.ret ("ans"), ⟨true, true, true⟩) := by
  refine ⟨by decide, by decide, rfl, by decide, ?_⟩
  have h := gen_output_stripped envGen ⟨"a.txt"⟩ ("q") (" ans ")
    (by decide) (by decide) rfl (by decide)
  rw [show pyStrip (" ans ") = ("ans" : String) from by decide] at h
  exact h

/-- C9: past the guards, `response` takes element 1 of the decoded output
split on the prompt: when the prompt does not occur in the decoded output the
split has a single piece and the indexing raises the uncaught `IndexError`;
when it does occur, the call returns a string. -/
theorem split_index_behaviour (env : Env) (m : UploadedFile) (q : String)
    (hext : (".txt" : String).data <:+ m.name.data)
    (hlen : (env.tokenize (promptOf (env.readFile m.name) q)).length ≤ 32768) :
    (¬ (promptOf (env.readFile m.name) q).data <:+:
        (env.decode (env.generate (env.tokenize (promptOf (env.readFile m.name) q)))).data →
      response env (some m) q = (.indexError, ⟨true, true, true⟩)) ∧
    ((promptOf (env.readFile m.name) q).data <:+:
        (env.decode (env.generate (env.tokenize (promptOf (env.readFile m.name) q)))).data →
      ∃ s, response env (some m) q = (.ret s, ⟨true, true, true⟩)) := by
  constructor
  · intro hno
    rw [response_some, if_neg (not_ext_fail_of_txt m hext), if_neg (not_lt.mpr hlen),
      pySplit_single _ _ hno]
    rfl
  · intro hocc
    rw [response_some, if_neg (not_ext_fail_of_txt m hext), if_neg (not_lt.mpr hlen)]
    obtain ⟨x, hx⟩ := getElem?_one_of_two_le _
      (pySplit_two_le _ _ (promptOf_data_ne_nil _ _) hocc)
    rw [hx]
    exact ⟨pyStrip x, rfl⟩

/-- C9 witness: a decoded output `"nope"` not containing the prompt makes the
call end in the `IndexError`. -/
theorem split_index_behaviour_witness :
    ((".txt" : String).data <:+ ("a.txt" : String).data) ∧
    (envBad.tokenize
      (promptOf (envBad.readFile (UploadedFile.mk ("a.txt")).name) ("q"))).length ≤ 32768 ∧
    ¬ (promptOf (envBad.readFile (UploadedFile.mk ("a.txt")).name) ("q")).data <:+:
      (envBad.decode (envBad.generate (envBad.tokenize
        (promptOf (envBad.readFile (UploadedFile.mk ("a.txt")).name) ("q"))))).data ∧
    response envBad (some ⟨"a.txt"⟩) ("q") = (.indexError, ⟨true, true, true⟩) :=
  ⟨by decide, by decide, by decide,
    (split_index_behaviour envBad ⟨"a.txt"⟩ ("q") (by decide) (by decide)).1 (by decide)⟩

/-- C6: `response` has exactly two user-facing failure messages — the txt
rejection and the token-limit refusal, which are distinct strings — and every
other call reaches generation, whose outcome is either the stripped split
piece of the decoded output or the uncaught `IndexError`; no further error is
converted into a message. -/
theorem failure_messages (env : Env) (material : Option UploadedFile) (q : String) :
    (∀ n : Nat, OVER_LIMIT_MSG n ≠ ONLY_TXT_MSG) ∧
    (response env material q = (.ret ONLY_TXT_MSG, ⟨false, false, false⟩) ∨
     (∃ n, 32768 < n ∧
        response env material q = (.ret (OVER_LIMIT_MSG n), ⟨true, true, false⟩)) ∨
     ((response env material q).2.genCalled = true ∧
       ((response env material q).1 = .indexError ∨
        ∃ s, (response env material q).1 = .ret (pyStrip s)))) := by
  constructor
  · intro n h
    have hlen := congrArg String.length h
    simp only [OVER_LIMIT_MSG, ONLY_TXT_MSG, String.length_append] at hlen
    have e1 : ("This demo supports tokens less than 32768, while the current is " :
        String).length = 64 := rfl
    have e2 : ((". Please use material with less tokens.") : String).length = 39 := rfl
    have e3 : (("Only support txt file.") : String).length = 22 := rfl
    omega
  · rcases material with _ | m
    · exact Or.inl rfl
    · by_cases h1 : (pySplit m.name dotSep).getLastD emptyStr ≠ txtExt
      · refine Or.inl ?_
        rw [response_some, if_pos h1]
      · by_cases h2 : (env.tokenize (promptOf (env.readFile m.name) q)).length > 32768
        · refine Or.inr (Or.inl ⟨_, h2, ?_⟩)
          rw [response_some, if_neg h1, if_pos h2]
        · refine Or.inr (Or.inr ?_)
          rw [response_some, if_neg h1, if_neg h2]
          rcases hsp : (pySplit
              (env.decode (env.generate (env.tokenize (promptOf (env.readFile m.name) q))))
              (promptOf (env.readFile m.name) q))[1]? with _ | piece
          · exact ⟨rfl, Or.inl rfl⟩
          · exact ⟨rfl, Or.inr ⟨piece, rfl⟩⟩

/-- C7: the prompt handed to the tokenizer is exactly the fixed instruction
template with the `\x7binstruction\x7d` slot replaced by the material content
followed by a newline followed by the question. -/
theorem prompt_is_template (d q : String) :
    promptOf d q = promptHead ++ (d ++ "\n" ++ q) ++ promptTail :=
  promptOf_eq d q

/-- C4: with `max_position_embeddings = m` present and non-zero, a
`--context_size c > m` sets `rope_scaling` to a linear scaling whose factor is
`⌈c / m⌉` (the integer the code computes equals the rational ceiling), and any
other `c` leaves `rope_scaling` unchanged. -/
theorem rope_scaling_spec (mpe : Nat) (rs : Option RopeScaling) (c : Int)
    (hm : mpe ≠ 0) :
    (((mpe : Int) < c →
      setRopeScaling ⟨some mpe, rs⟩ c =
        ⟨some mpe, some ⟨"linear", (c.toNat + mpe - 1) / mpe⟩⟩ ∧
      ((((c.toNat + mpe - 1) / mpe : Nat) : Int) = ⌈(c : ℚ) / (mpe : ℚ)⌉))) ∧
    (¬ (mpe : Int) < c → setRopeScaling ⟨some mpe, rs⟩ c = ⟨some mpe, rs⟩) := by
  constructor
  · intro hc
    constructor
    · show (if mpe ≠ 0 ∧ (mpe : Int) < c then _ else _) = _
      rw [if_pos ⟨hm, hc⟩]
    · have hb : 0 < mpe := Nat.pos_of_ne_zero hm
      have hc0 : (0 : Int) ≤ c :=
        le_trans (by exact_mod_cast Nat.zero_le mpe) (le_of_lt hc)
      obtain ⟨n, rfl⟩ : ∃ n : Nat, c = (n : Int) :=
        ⟨c.toNat, (Int.toNat_of_nonneg hc0).symm⟩
      rw [show ((n : Int)).toNat = n from Int.toNat_natCast n]
      have hmn : mpe < n := by exact_mod_cast hc
      have h1 := Nat.div_add_mod (n + mpe - 1) mpe
      have h2 : (n + mpe - 1) % mpe < mpe := Nat.mod_lt _ hb
      have hle : n ≤ mpe * ((n + mpe - 1) / mpe) := by omega
      have hlt : mpe * ((n + mpe - 1) / mpe) < n + mpe := by omega
      have hmq : (0 : ℚ) < (mpe : ℚ) := by exact_mod_cast hb
      have hle' : (n : ℚ) ≤ (mpe : ℚ) * ((n + mpe - 1) / mpe : Nat) := by
        exact_mod_cast hle
      have hlt' : ((mpe : ℚ)) * ((n + mpe - 1) / mpe : Nat) <
          (n : ℚ) + (mpe : ℚ) := by exact_mod_cast hlt
      symm
      rw [Int.ceil_eq_iff]
      simp only [Int.cast_natCast]
      constructor
      · rw [lt_div_iff₀ hmq]
        linarith
      · rw [div_le_iff₀ hmq]
        linarith
  · intro hc
    show (if mpe ≠ 0 ∧ (mpe : Int) < c then _ else _) = _
    rw [if_neg fun h => hc h.2]

/-- C4 witness: `m = 2048`, `c = 8192` gives the linear factor `4 = ⌈8192/2048⌉`. -/
theorem rope_scaling_spec_witness :
    (2048 : Nat) ≠ 0 ∧ ((2048 : Nat) : Int) < 8192 ∧
    setRopeScaling ⟨some 2048, none⟩ 8192 = ⟨some 2048, some ⟨"linear", 4⟩⟩ ∧
    (((4 : Nat) : Int) = ⌈((8192 : Int) : ℚ) / ((2048 : Nat) : ℚ)⌉) := by
  have h := (rope_scaling_spec 2048 none 8192 (by norm_num)).1 (by norm_num)
  have e : ((8192 : Int).toNat + 2048 - 1) / 2048 = 4 := by decide
  rw [e] at h
  exact ⟨by norm_num, by norm_num, h.1, h.2⟩

/-- C10: the tokenizer is built with `model_max_length` equal to the maximum
of `--context_size` and `max_position_embeddings`; unlike the RoPE-scaling
step, which leaves an absent `max_position_embeddings` untouched, the
comparison is unguarded and fails when the attribute is absent. -/
theorem model_max_length_spec (m : Nat) (c : Int) (rs : Option RopeScaling) :
    tokenizerModelMaxLength (some m) c = some (max c (m : Int)) ∧
    tokenizerModelMaxLength none c = none ∧
    setRopeScaling ⟨none, rs⟩ c = ⟨none, rs⟩ := by
  refine ⟨?_, rfl, rfl⟩
  show some (if (m : Int) < c then c else (m : Int)) = some (max c (m : Int))
  rcases lt_or_le (m : Int) c with h | h
  · rw [if_pos h, max_eq_left (le_of_lt h)]
  · rw [if_neg (not_lt.mpr h), max_eq_right h]

end Demo
